import Mathlib

/-!
Shallow embedding of the case-copy pipeline of the
dhis2-godata-interoperability repository (file src/actions/case.js in the
sources): outbreak assignment by recursive parent lookup, per-stage event
enrichment, lab-result and case-classification derivation, and the
grouped submission of cases.

Conventions of the embedding:
- JavaScript objects become structures; a field that may be absent
  (undefined) becomes an Option.
- JavaScript functions that may throw a TypeError (reading a property of
  undefined) return Option, with none standing for the thrown error.
- The unbounded recursion of findOutbreackForCase takes an explicit fuel
  argument; running out of fuel yields none.
- The asynchronous submission loop is modelled by the sequential trace of
  API calls it issues: each awaited call completes before the next call
  in the trace is issued.
-/

/-- A data value of an event: pair of data element id and value. -/
structure DataValue where
  dataElement : String
  value : String
deriving DecidableEq, Repr

/-- A data value after enrichment: displayName is attached by catalog
lookup and is undefined (none) when the catalog has no entry. -/
structure DataValueE where
  dataElement : String
  value : String
  displayName : Option String
deriving DecidableEq, Repr

/-- An event of a tracked entity instance. -/
structure Event where
  programStage : String
  dataValues : List DataValue
deriving DecidableEq, Repr

/-- An entry of the data-element catalog. -/
structure DataElement where
  id : String
  displayName : String
deriving DecidableEq, Repr

/-- An outbreak of the destination system. -/
structure Outbreak where
  id : String
  locationIds : List String
deriving DecidableEq, Repr

/-- An organisation unit; parent holds the id of the parent unit and is
none at a root. -/
structure OrgUnit where
  id : String
  parent : Option String
deriving DecidableEq, Repr

/-- A tracked entity instance together with every field the pipeline may
attach; an Option field is none while the field is still absent. -/
structure TE where
  orgUnit : String
  events : List Event
  outbreak : Option String
  clinicalExamination : Option (List DataValueE)
  labRequestStage : Option (List DataValueE)
  labResultStage : Option (List DataValueE)
  labResult : Option String
  caseClassification : Option String
  symptoms : Option (List DataValueE)
deriving DecidableEq, Repr

/-- The four stage roles whose events the enrichment attaches, named by
the field each one writes. -/
inductive StageField where
  | clinicalExamination
  | labRequestStage
  | labResultStage
  | symptoms
deriving DecidableEq, Repr

/-- Write the stage field selected by f. -/
def setStage (f : StageField) (v : List DataValueE) (te : TE) : TE :=
  match f with
  | .clinicalExamination => { te with clinicalExamination := some v }
  | .labRequestStage => { te with labRequestStage := some v }
  | .labResultStage => { te with labResultStage := some v }
  | .symptoms => { te with symptoms := some v }

/-- Read the stage field selected by f. -/
def getStage (f : StageField) (te : TE) : Option (List DataValueE) :=
  match f with
  | .clinicalExamination => te.clinicalExamination
  | .labRequestStage => te.labRequestStage
  | .labResultStage => te.labResultStage
  | .symptoms => te.symptoms

/-- Lookup of a key in an insertion-ordered association list of buckets,
as property access on the grouped JavaScript object. -/
def lookupBucket (avail : List (String × List α)) (k : String) : Option (List α) :=
  (avail.find? (fun p => p.1 == k)).map (fun p => p.2)

/-- Append an element to the bucket of key k, creating the bucket at the
end when the key is new: the reduceBy and groupBy step of Ramda, which
builds buckets in insertion order and appends within a bucket. -/
def insertGrouped (acc : List (String × List α)) (k : String) (a : α) :
    List (String × List α) :=
  match acc with
  | [] => [(k, [a])]
  | (k₀, b) :: rest =>
    if k₀ == k then (k₀, b ++ [a]) :: rest else (k₀, b) :: insertGrouped rest k a

/-- Grouping key of an outbreak: its first location id; a missing first
location becomes the string property key "undefined" in JavaScript. -/
def firstLocKey (o : Outbreak) : String :=
  o.locationIds.head?.getD "undefined"

/-- The outbreak-location index of assignOutbreak: group the outbreak
list by first location id, in list order. -/
def groupByFirstLocation (outbreaks : List Outbreak) : List (String × List Outbreak) :=
  outbreaks.foldl (fun acc o => insertGrouped acc (firstLocKey o) o) []

/-- Parent lookup step of findOutbreackForCase: find the organisation
unit record by id and read the id of its parent; none models the
TypeError thrown when the unit is missing or has no parent. -/
def parentOf (orgUnits : List OrgUnit) (locationID : String) : Option String :=
  (orgUnits.find? (fun u => u.id == locationID)).bind (fun u => u.parent)

/-- Recursive outbreak lookup of case.js: if the location id is a key of
the index, return the id of the first outbreak of its bucket, else
recurse on the parent id. Fuel bounds the recursion; none models both
fuel exhaustion and the JavaScript errors of the original. -/
def findOutbreackForCase (available : List (String × List Outbreak))
    (orgUnits : List OrgUnit) : Nat → String → Option String
  | 0, _ => none
  | fuel + 1, locationID =>
    match lookupBucket available locationID with
    | some bucket => bucket.head?.map (fun o => o.id)
    | none =>
      match parentOf orgUnits locationID with
      | some parentID => findOutbreackForCase available orgUnits fuel parentID
      | none => none

/-- Attach to a tracked entity the outbreak resolved from its org unit. -/
def assignOutbreak (outbreaks : List Outbreak) (orgUnits : List OrgUnit)
    (fuel : Nat) (te : TE) : TE :=
  { te with outbreak :=
      findOutbreackForCase (groupByFirstLocation outbreaks) orgUnits fuel te.orgUnit }

/-- Find the event of the given program stage and parse its data values,
attaching the displayName from the data-element catalog; a missing event
yields the empty list, a failed catalog lookup a none displayName. -/
def findAndTransformEvent (dataElements : List DataElement)
    (programID : Option String) (events : List Event) : List DataValueE :=
  (((events.find? (fun e => some e.programStage == programID)).map
      (fun e => e.dataValues)).getD []).map
    (fun dv =>
      { dataElement := dv.dataElement
        value := dv.value
        displayName := (dataElements.find? (fun de => de.id == dv.dataElement)).map
          (fun de => de.displayName) })

/-- Store under the stage field the parsed data values of the event of
the given program stage. -/
def addEvent (dataElements : List DataElement) (eventName : StageField)
    (programStageID : Option String) (te : TE) : TE :=
  setStage eventName (findAndTransformEvent dataElements programStageID te.events) te

/-- Find a data value by data element id; an absent list counts as
empty. -/
def findDataValueByID (dataValues : Option (List DataValueE)) (id : String) :
    Option DataValueE :=
  (dataValues.getD []).find? (fun dv => dv.dataElement == id)

/-- Check that the data value found for the element has the given value;
when none is found the comparison runs against the empty object and is
false. -/
def checkDataValue (dataValues : Option (List DataValueE))
    (dataElement : String) (v : String) : Bool :=
  match findDataValueByID dataValues dataElement with
  | some dv => dv.value == v
  | none => false

/-- Conjunction of the condition pairs over the labResultStage field of a
tracked entity (allPass of Ramda: true on the empty list). -/
def checkDataValuesConditions (conditions : List (String × String)) (te : TE) : Bool :=
  conditions.all (fun p => checkDataValue te.labResultStage p.1 p.2)

/-- The guard of addLabResult. The JavaScript source compares the field
with a fresh array literal by strict inequality; a fresh array is a new
object reference, so the comparison is true for every value of the
field, the empty list included. -/
def neqFreshArrayLit (_ : Option (List DataValueE)) : Bool :=
  true

/-- Set labResult to POSITIVE when every condition pair passes and to
NEGATIVE otherwise, guarded by the always-true literal comparison. -/
def addLabResult (confirmedTestConditions : List (String × String)) (te : TE) : TE :=
  if neqFreshArrayLit te.labResultStage then
    { te with labResult := some (if checkDataValuesConditions confirmedTestConditions te then "POSITIVE" else "NEGATIVE") }
  else te

/-- The classification chain of addCaseClassification; none models the
TypeError of reading length on an absent stage field. The conjunction of
the NEGATIVE test with the length test short-circuits as in the
source. -/
def classify (te : TE) : Option String :=
  if te.labResult = some "POSITIVE" then
    some "CONFIRMED"
  else if te.labResult = some "NEGATIVE" then
    match te.labResultStage with
    | none => none
    | some rs =>
      if rs.length > 0 then
        some "NOT_A_CASE_DISCARDED"
      else
        match te.labRequestStage with
        | none => none
        | some rq => some (if rq.length > 0 then "PROBABLE" else "SUSPECT")
  else
    match te.labRequestStage with
    | none => none
    | some rq => some (if rq.length > 0 then "PROBABLE" else "SUSPECT")

/-- Attach the classification derived by the priority chain. -/
def addCaseClassification (te : TE) : Option TE :=
  (classify te).map (fun c => { te with caseClassification := some c })

/-- The composed enrichment of addLabInformation: the four stage events,
then the lab result, then the case classification. The four program
stage ids arrive as a list and are destructured positionally; a missing
position is undefined. -/
def addLabInformation (programsIDs : List String) (dataElements : List DataElement)
    (confirmedTestConditions : List (String × String)) (te : TE) : Option TE :=
  addCaseClassification
    (addLabResult confirmedTestConditions
      (addEvent dataElements .symptoms programsIDs[3]?
        (addEvent dataElements .labResultStage programsIDs[2]?
          (addEvent dataElements .labRequestStage programsIDs[1]?
            (addEvent dataElements .clinicalExamination programsIDs[0]? te)))))

/-- An API call issued to the destination system. -/
inductive ApiCall where
  | login
  | activateOutbreakForUser (outbreak : String)
  | createOutbreakCase (outbreak : String) (body : TE)
deriving DecidableEq, Repr

/-- Grouping key of a case for submission: its outbreak field, the
string property key "undefined" when absent. -/
def outbreakKey (te : TE) : String :=
  te.outbreak.getD "undefined"

/-- Group the case list by outbreak, in insertion order. -/
def groupByOutbreak (cases : List TE) : List (String × List TE) :=
  cases.foldl (fun acc c => insertGrouped acc (outbreakKey c) c) []

/-- The calls issued for one outbreak group: activate the outbreak, then
create every case of the group with the outbreak bookkeeping field
removed. -/
def outbreakGroupCalls (g : String × List TE) : List ApiCall :=
  ApiCall.activateOutbreakForUser g.1 ::
    g.2.map (fun c => ApiCall.createOutbreakCase g.1 { c with outbreak := none })

/-- The sequential trace of API calls issued by sendCasesToGoData: one
login, then per outbreak group an activation followed by the creation of
its cases. Every activation is awaited before the creations of its group
are issued, so trace order is completion order up to each creation. -/
def sendCasesToGoData (cases : List TE) : List ApiCall :=
  ApiCall.login :: (groupByOutbreak cases).flatMap outbreakGroupCalls

/-- An explicit ancestor chain for the termination argument: every id of
the chain but the last misses the index and steps to the next by parent
lookup, and the last id hits the index with a non-empty bucket. -/
def validChain (available : List (String × List Outbreak))
    (orgUnits : List OrgUnit) : String → List String → Bool
  | x, [] =>
    match lookupBucket available x with
    | some b => !b.isEmpty
    | none => false
  | x, y :: rest =>
    (lookupBucket available x).isNone && (parentOf orgUnits x == some y) &&
      validChain available orgUnits y rest

/-! Sample values used by witnesses and concrete evidence theorems. -/

/-- A bare tracked entity instance as loaded from the source system: no
enriched field is present yet. -/
def sampleTE : TE :=
  { orgUnit := "U3", events := [], outbreak := none, clinicalExamination := none,
    labRequestStage := none, labResultStage := none, labResult := none,
    caseClassification := none, symptoms := none }

/-- A tracked entity instance whose four stage fields are present and
empty, as produced by the enrichment on an instance without events. -/
def sampleEmptyStagesTE : TE :=
  { sampleTE with clinicalExamination := some [], labRequestStage := some [],
                  labResultStage := some [], symptoms := some [] }

/-- A lab-result stage holding two data values for the same data
element; the first carries value a, the second value b. -/
def dupElementStage : List DataValueE :=
  [{ dataElement := "d", value := "a", displayName := none },
   { dataElement := "d", value := "b", displayName := none }]

/-- A tracked entity instance with an event in stage s1 only. -/
def sampleEventTE : TE :=
  { sampleTE with events := [{ programStage := "s1", dataValues := [{ dataElement := "de1", value := "x" }] }] }

/-- A lab-result stage with a single data value for element d carrying
value v. -/
def singleMatchStage : List DataValueE :=
  [{ dataElement := "d", value := "v", displayName := none }]

/-- A tracked entity instance whose labResultStage is the single
matching data value. -/
def singleMatchTE : TE := { sampleTE with labResultStage := some singleMatchStage }

/-- Outbreak covering location U1. -/
def sampleOutbreakA : Outbreak := { id := "O1", locationIds := ["U1"] }

/-- A second outbreak that also lists U1 first. -/
def sampleOutbreakB : Outbreak := { id := "O2", locationIds := ["U1"] }

/-- A three-level organisation-unit chain U3 under U2 under the root
U1. -/
def sampleOrgUnits : List OrgUnit :=
  [{ id := "U1", parent := none }, { id := "U2", parent := some "U1" },
   { id := "U3", parent := some "U2" }]

/-! Helper lemmas shared by the claim theorems. -/

theorem getStage_setStage (f : StageField) (v : List DataValueE) (te : TE) :
    getStage f (setStage f v te) = some v := by
  cases f <;> rfl

theorem checkDataValue_iff (vs : List DataValueE) (d v : String) :
    checkDataValue (some vs) d v = true ↔
      ∃ dv, vs.find? (fun x => x.dataElement == d) = some dv ∧ dv.value = v := by
  unfold checkDataValue findDataValueByID
  cases h : vs.find? (fun x => x.dataElement == d) with
  | none => simp [h]
  | some dv => simp [h, beq_iff_eq]

theorem classify_eq (te : TE) (rs rq : List DataValueE)
    (hrs : te.labResultStage = some rs) (hrq : te.labRequestStage = some rq) :
    classify te = some (
      if te.labResult = some "POSITIVE" then "CONFIRMED"
      else if te.labResult = some "NEGATIVE" ∧ rs ≠ [] then "NOT_A_CASE_DISCARDED"
      else if rq ≠ [] then "PROBABLE" else "SUSPECT") := by
  unfold classify
  rw [hrs, hrq]
  by_cases h1 : te.labResult = some "POSITIVE"
  · simp [h1]
  · by_cases h2 : te.labResult = some "NEGATIVE"
    · by_cases h3 : rs = []
      · subst h3
        by_cases h4 : rq = []
        · subst h4; simp [h1, h2]
        · simp [h1, h2, h4, List.length_pos.mpr h4]
      · simp [h1, h2, h3, List.length_pos.mpr h3]
    · by_cases h4 : rq = []
      · subst h4; simp [h1, h2]
      · simp [h1, h2, h4, List.length_pos.mpr h4]

theorem lookupBucket_insertGrouped_same {α : Type} (acc : List (String × List α))
    (k : String) (a : α) :
    lookupBucket (insertGrouped acc k a) k = some ((lookupBucket acc k).getD [] ++ [a]) := by
  induction acc with
  | nil => simp [insertGrouped, lookupBucket]
  | cons p rest ih =>
    obtain ⟨k₀, b⟩ := p
    cases hk : (k₀ == k)
    · simpa [insertGrouped, lookupBucket, List.find?_cons, hk] using ih
    · simp [insertGrouped, lookupBucket, List.find?_cons, hk]

theorem lookupBucket_insertGrouped_other {α : Type} (acc : List (String × List α))
    (k k₁ : String) (a : α) (hne : k₁ ≠ k) :
    lookupBucket (insertGrouped acc k a) k₁ = lookupBucket acc k₁ := by
  have hkk : (k == k₁) = false := by
    simp only [beq_eq_false_iff_ne, ne_eq]
    intro h
    exact hne h.symm
  induction acc with
  | nil => simp [insertGrouped, lookupBucket, List.find?_cons, hkk]
  | cons p rest ih =>
    obtain ⟨k₀, b⟩ := p
    cases hk : (k₀ == k)
    · cases hk₁ : (k₀ == k₁)
      · simpa [insertGrouped, lookupBucket, List.find?_cons, hk, hk₁] using ih
      · simp [insertGrouped, lookupBucket, List.find?_cons, hk, hk₁]
    · have hk₀ : k₀ = k := by simpa using hk
      subst hk₀
      simp [insertGrouped, lookupBucket, List.find?_cons, hkk]

theorem lookupBucket_groupFold_some (l : List Outbreak) (k : String) :
    ∀ (acc : List (String × List Outbreak)) (b : List Outbreak),
      lookupBucket acc k = some b →
      lookupBucket (l.foldl (fun acc o => insertGrouped acc (firstLocKey o) o) acc) k =
        some (b ++ l.filter (fun o => firstLocKey o == k)) := by
  induction l with
  | nil => intro acc b hb; simpa using hb
  | cons o rest ih =>
    intro acc b hb
    simp only [List.foldl_cons, List.filter_cons]
    cases hko : (firstLocKey o == k)
    · simp only [Bool.false_eq_true, if_false]
      refine ih _ b ?_
      rw [lookupBucket_insertGrouped_other acc (firstLocKey o) k o
        (by intro hc; subst hc; simp at hko)]
      exact hb
    · have hkeq : firstLocKey o = k := by simpa using hko
      simp only [if_pos rfl]
      have hstep : lookupBucket (insertGrouped acc (firstLocKey o) o) k = some (b ++ [o]) := by
        rw [hkeq, lookupBucket_insertGrouped_same, hb]
        rfl
      rw [ih _ (b ++ [o]) hstep]
      simp

theorem lookupBucket_groupFold_none (l : List Outbreak) (k : String) :
    ∀ (acc : List (String × List Outbreak)),
      lookupBucket acc k = none →
      lookupBucket (l.foldl (fun acc o => insertGrouped acc (firstLocKey o) o) acc) k =
        if l.filter (fun o => firstLocKey o == k) = [] then none
        else some (l.filter (fun o => firstLocKey o == k)) := by
  induction l with
  | nil => intro acc hb; simpa using hb
  | cons o rest ih =>
    intro acc hb
    simp only [List.foldl_cons, List.filter_cons]
    cases hko : (firstLocKey o == k)
    · simp only [Bool.false_eq_true, if_false]
      refine ih _ ?_
      rw [lookupBucket_insertGrouped_other acc (firstLocKey o) k o
        (by intro hc; subst hc; simp at hko)]
      exact hb
    · have hkeq : firstLocKey o = k := by simpa using hko
      simp only [if_pos rfl]
      have hstep : lookupBucket (insertGrouped acc (firstLocKey o) o) k = some [o] := by
        rw [hkeq, lookupBucket_insertGrouped_same, hb]
        rfl
      rw [lookupBucket_groupFold_some rest k _ [o] hstep]
      simp

theorem find?_eq_head?_filter {α : Type} (p : α → Bool) (l : List α) :
    l.find? p = (l.filter p).head? := by
  induction l with
  | nil => rfl
  | cons a l ih =>
    cases h : p a
    · simp only [List.find?_cons, List.filter_cons, h]
      exact ih
    · simp only [List.find?_cons, List.filter_cons, h]
      rfl

theorem groupCalls_ne_login (groups : List (String × List TE)) :
    ∀ x ∈ groups.flatMap outbreakGroupCalls, x ≠ ApiCall.login := by
  intro x hx
  rw [List.mem_flatMap] at hx
  obtain ⟨g, _, hxg⟩ := hx
  simp only [outbreakGroupCalls, List.mem_cons, List.mem_map] at hxg
  rcases hxg with h | ⟨c, _, h⟩ <;> subst h <;> intro hcontra <;> exact ApiCall.noConfusion hcontra

theorem create_preceded_by_activate (groups : List (String × List TE)) :
    ∀ (j : Nat) (o : String) (body : TE),
      (groups.flatMap outbreakGroupCalls)[j]? = some (ApiCall.createOutbreakCase o body) →
      ∃ i, i < j ∧
        (groups.flatMap outbreakGroupCalls)[i]? = some (ApiCall.activateOutbreakForUser o) := by
  induction groups with
  | nil => intro j o body h; simp at h
  | cons g gs ih =>
    intro j o body h
    rw [List.flatMap_cons] at h ⊢
    by_cases hj : j < (outbreakGroupCalls g).length
    · rw [List.getElem?_append_left hj] at h
      cases j with
      | zero =>
        rw [show (outbreakGroupCalls g)[0]? = some (ApiCall.activateOutbreakForUser g.1)
          by simp [outbreakGroupCalls]] at h
        exact absurd h (by simp)
      | succ n =>
        have h2 : (g.2.map
            (fun c => ApiCall.createOutbreakCase g.1 { c with outbreak := none }))[n]? =
            some (ApiCall.createOutbreakCase o body) := by
          simpa [outbreakGroupCalls] using h
        rw [List.getElem?_map] at h2
        cases hc : g.2[n]? with
        | none => rw [hc] at h2; exact absurd h2 (by simp)
        | some c =>
          rw [hc] at h2
          have heq : ApiCall.createOutbreakCase g.1 { c with outbreak := none } =
              ApiCall.createOutbreakCase o body := by simpa using h2
          have ho : g.1 = o := by injection heq
          refine ⟨0, Nat.succ_pos n, ?_⟩
          rw [List.getElem?_append_left (by simp [outbreakGroupCalls]), ← ho]
          simp [outbreakGroupCalls]
    · push_neg at hj
      rw [List.getElem?_append_right hj] at h
      obtain ⟨i, hi, hact⟩ := ih (j - (outbreakGroupCalls g).length) o body h
      refine ⟨i + (outbreakGroupCalls g).length, by omega, ?_⟩
      rw [List.getElem?_append_right (by omega)]
      simpa [Nat.add_sub_cancel] using hact

/-! Claim theorems. -/

/-- C1. Evidence of the divergence between spec and code: on a tracked
entity instance whose labResultStage is the empty list, addLabResult does
NOT return the instance unchanged; the guard of the source compares the
field against a fresh array literal and is therefore always true, so a
labResult of NEGATIVE is attached even though the stage is empty and the
condition list is non-empty. -/
theorem addLabResult_sets_result_on_empty_stage :
    sampleEmptyStagesTE.labResultStage = some [] ∧
    sampleEmptyStagesTE.labResult = none ∧
    (addLabResult [("d", "v")] sampleEmptyStagesTE).labResult = some "NEGATIVE" ∧
    addLabResult [("d", "v")] sampleEmptyStagesTE ≠ sampleEmptyStagesTE := by
  decide

/-- C2 counterexample. The claim as stated fails: with a lab-result
stage holding two data values for element d (first value a, then value
b) and the single condition pair (d, b), SOME data value for d has the
expected value b, so the claim demands POSITIVE, but the code inspects
only the first data value found for d and yields NEGATIVE. -/
theorem addLabResult_some_match_still_negative :
    (∀ p ∈ [("d", "b")], ∃ dv ∈ dupElementStage, dv.dataElement = p.1 ∧ dv.value = p.2) ∧
    ({ sampleTE with labResultStage := some dupElementStage } : TE).labResultStage =
      some dupElementStage ∧
    dupElementStage ≠ [] ∧
    (addLabResult [("d", "b")]
      { sampleTE with labResultStage := some dupElementStage }).labResult =
      some "NEGATIVE" := by
  decide

/-- C2 amended. For every tracked entity instance with a non-empty
labResultStage and every condition list, addLabResult sets labResult to
POSITIVE if and only if for every pair the FIRST data value of the stage
with that dataElementId exists and its value equals the expected value
(conjunction over all pairs); otherwise it sets NEGATIVE. A pair whose
dataElementId matches no data value counts as a failed condition. -/
theorem addLabResult_first_match_conjunction (conds : List (String × String))
    (te : TE) (vs : List DataValueE)
    (hvs : te.labResultStage = some vs) (_hne : vs ≠ []) :
    ((addLabResult conds te).labResult = some "POSITIVE" ↔
      ∀ p ∈ conds, ∃ dv, vs.find? (fun x => x.dataElement == p.1) = some dv ∧
        dv.value = p.2) ∧
    ((addLabResult conds te).labResult = some "POSITIVE" ∨
     (addLabResult conds te).labResult = some "NEGATIVE") := by
  have hlab : (addLabResult conds te).labResult =
      some (if checkDataValuesConditions conds te then "POSITIVE" else "NEGATIVE") := rfl
  have hcheck : checkDataValuesConditions conds te = true ↔
      ∀ p ∈ conds, ∃ dv, vs.find? (fun x => x.dataElement == p.1) = some dv ∧
        dv.value = p.2 := by
    unfold checkDataValuesConditions
    rw [hvs, List.all_eq_true]
    constructor
    · intro h p hp
      exact (checkDataValue_iff vs p.1 p.2).mp (h p hp)
    · intro h p hp
      exact (checkDataValue_iff vs p.1 p.2).mpr (h p hp)
  refine ⟨?_, ?_⟩
  · rw [hlab]
    by_cases hc : checkDataValuesConditions conds te = true
    · rw [if_pos hc]
      exact ⟨fun _ => hcheck.mp hc, fun _ => rfl⟩
    · rw [if_neg hc]
      constructor
      · intro hcontra
        exact absurd (Option.some.inj hcontra) (by decide)
      · intro hall
        exact absurd (hcheck.mpr hall) hc
  · rw [hlab]
    cases hq : checkDataValuesConditions conds te
    · exact Or.inr rfl
    · exact Or.inl rfl

/-- Witness for the amended C2 theorem at a concrete instance whose
single data value satisfies the single condition. -/
theorem addLabResult_first_match_conjunction_witness :
    (addLabResult [("d", "v")] singleMatchTE).labResult = some "POSITIVE" ∨
    (addLabResult [("d", "v")] singleMatchTE).labResult = some "NEGATIVE" :=
  (addLabResult_first_match_conjunction [("d", "v")] singleMatchTE
    singleMatchStage rfl (by decide)).2

/-- C3. With both labResultStage and labRequestStage present,
addCaseClassification sets caseClassification by the first matching rule
of the ordered chain: labResult POSITIVE gives CONFIRMED; else labResult
NEGATIVE with non-empty labResultStage gives NOT_A_CASE_DISCARDED; else
non-empty labRequestStage gives PROBABLE; else SUSPECT. -/
theorem addCaseClassification_priority_chain (te : TE) (rs rq : List DataValueE)
    (hrs : te.labResultStage = some rs) (hrq : te.labRequestStage = some rq) :
    ∃ te₁, addCaseClassification te = some te₁ ∧
      ((te.labResult = some "POSITIVE" → te₁.caseClassification = some "CONFIRMED") ∧
       (te.labResult ≠ some "POSITIVE" → te.labResult = some "NEGATIVE" → rs ≠ [] →
         te₁.caseClassification = some "NOT_A_CASE_DISCARDED") ∧
       (te.labResult ≠ some "POSITIVE" → ¬(te.labResult = some "NEGATIVE" ∧ rs ≠ []) →
         rq ≠ [] → te₁.caseClassification = some "PROBABLE") ∧
       (te.labResult ≠ some "POSITIVE" → ¬(te.labResult = some "NEGATIVE" ∧ rs ≠ []) →
         rq = [] → te₁.caseClassification = some "SUSPECT")) := by
  rw [addCaseClassification, classify_eq te rs rq hrs hrq]
  refine ⟨_, rfl, ?_, ?_, ?_, ?_⟩
  · intro h1
    simp [h1]
  · intro h1 h2 h3
    simp [h1, h2, h3]
  · intro h1 h2 h3
    simp [h1, h2, h3]
  · intro h1 h2 h3
    simp [h1, h2, h3]

/-- Witness for C3 at an instance with POSITIVE labResult and both
stages present and empty. -/
theorem addCaseClassification_priority_chain_witness :
    ∃ te₁,
      addCaseClassification
        { sampleEmptyStagesTE with labResult := some "POSITIVE" } = some te₁ ∧
      te₁.caseClassification = some "CONFIRMED" := by
  obtain ⟨te₁, h1, hconf, _⟩ := addCaseClassification_priority_chain
    { sampleEmptyStagesTE with labResult := some "POSITIVE" } [] [] rfl rfl
  exact ⟨te₁, h1, hconf rfl⟩

/-- C4. In every run of sendCasesToGoData the trace starts with the
single login call, every createOutbreakCase for an outbreak is preceded
in the trace by the activateOutbreakForUser call for that same outbreak
(which, being awaited, completed before the creation was issued), and
every activation is preceded by the login. -/
theorem sendCasesToGoData_protocol_order (cases : List TE) :
    (sendCasesToGoData cases).head? = some ApiCall.login ∧
    (sendCasesToGoData cases).count ApiCall.login = 1 ∧
    (∀ (j : Nat) (o : String) (body : TE),
      (sendCasesToGoData cases)[j]? = some (ApiCall.createOutbreakCase o body) →
      ∃ i, i < j ∧
        (sendCasesToGoData cases)[i]? = some (ApiCall.activateOutbreakForUser o)) ∧
    (∀ (j : Nat) (o : String),
      (sendCasesToGoData cases)[j]? = some (ApiCall.activateOutbreakForUser o) →
      ∃ i, i < j ∧ (sendCasesToGoData cases)[i]? = some ApiCall.login) := by
  refine ⟨rfl, ?_, ?_, ?_⟩
  · rw [sendCasesToGoData, List.count_cons]
    have hno : ApiCall.login ∉ (groupByOutbreak cases).flatMap outbreakGroupCalls :=
      fun hmem => groupCalls_ne_login _ _ hmem rfl
    rw [List.count_eq_zero.mpr hno]
    simp
  · intro j o body h
    rw [sendCasesToGoData] at h
    cases j with
    | zero => simp at h
    | succ n =>
      rw [List.getElem?_cons_succ] at h
      obtain ⟨i, hi, hact⟩ := create_preceded_by_activate _ n o body h
      refine ⟨i + 1, by omega, ?_⟩
      rw [sendCasesToGoData, List.getElem?_cons_succ]
      exact hact
  · intro j o h
    cases j with
    | zero => rw [sendCasesToGoData] at h; simp at h
    | succ n => exact ⟨0, Nat.succ_pos n, by simp [sendCasesToGoData]⟩

/-- Witness applying the C4 theorem to a concrete run. -/
theorem sendCasesToGoData_protocol_order_witness :
    (sendCasesToGoData [sampleTE]).head? = some ApiCall.login :=
  (sendCasesToGoData_protocol_order [sampleTE]).1

/-- C5. Along an explicit ancestor chain (the witness of the acyclicity
and reachability hypotheses: successive parent links, no index hit
before the end, an index hit with non-empty bucket at the end),
findOutbreackForCase terminates with a result, and the result is the
same for every sufficient fuel: resolution of the same org-unit id
against the same index and org-unit list always yields the same outbreak
id. -/
theorem findOutbreackForCase_terminates_deterministic
    (available : List (String × List Outbreak)) (orgUnits : List OrgUnit)
    (loc : String) (chain : List String)
    (h : validChain available orgUnits loc chain = true) :
    ∃ r, ∀ fuel, chain.length < fuel →
      findOutbreackForCase available orgUnits fuel loc = some r := by
  induction chain generalizing loc with
  | nil =>
    simp only [validChain] at h
    cases hl : lookupBucket available loc with
    | none => rw [hl] at h; exact absurd h (by decide)
    | some b =>
      rw [hl] at h
      cases hb : b with
      | nil => subst hb; exact absurd h (by decide)
      | cons b₀ brest =>
        refine ⟨b₀.id, ?_⟩
        intro fuel hfuel
        cases fuel with
        | zero => omega
        | succ n =>
          simp only [findOutbreackForCase, hl, hb]
          rfl
  | cons y rest ih =>
    simp only [validChain, Bool.and_eq_true, beq_iff_eq, Option.isNone_iff_eq_none] at h
    obtain ⟨⟨hnone, hpar⟩, hchain⟩ := h
    obtain ⟨r, hr⟩ := ih y hchain
    refine ⟨r, ?_⟩
    intro fuel hfuel
    cases fuel with
    | zero => simp at hfuel
    | succ n =>
      simp only [findOutbreackForCase, hnone, hpar]
      exact hr n (by simpa using hfuel)

/-- Witness for C5 on the sample tree U3 under U2 under U1, with the
only outbreak at the root U1. -/
theorem findOutbreackForCase_terminates_deterministic_witness :
    ∃ r, ∀ fuel, 2 < fuel →
      findOutbreackForCase (groupByFirstLocation [sampleOutbreakA])
        sampleOrgUnits fuel "U3" = some r :=
  findOutbreackForCase_terminates_deterministic
    (groupByFirstLocation [sampleOutbreakA]) sampleOrgUnits "U3" ["U2", "U1"] (by decide)

/-- C6. When the starting org-unit id has a bucket in the
outbreak-location index (some outbreak lists it as first location),
findOutbreackForCase returns at the first step, for every org-unit list
and every positive fuel alike (hence no parent lookup is involved), and
yields the id of the first outbreak in outbreak-list order whose first
location is that id: the tie-break among outbreaks sharing the first
location is grouping insertion order. -/
theorem findOutbreackForCase_immediate_hit (outbreaks : List Outbreak)
    (loc : String) (o : Outbreak)
    (h : outbreaks.find? (fun ob => firstLocKey ob == loc) = some o) :
    ∀ (orgUnits : List OrgUnit) (fuel : Nat),
      findOutbreackForCase (groupByFirstLocation outbreaks) orgUnits (fuel + 1) loc =
        some o.id := by
  intro orgUnits fuel
  have hfilter : (outbreaks.filter (fun ob => firstLocKey ob == loc)).head? = some o := by
    rw [← find?_eq_head?_filter]
    exact h
  have hne : outbreaks.filter (fun ob => firstLocKey ob == loc) ≠ [] := by
    intro hcontra
    rw [hcontra] at hfilter
    exact Option.noConfusion hfilter
  have hlook : lookupBucket (groupByFirstLocation outbreaks) loc =
      some (outbreaks.filter (fun ob => firstLocKey ob == loc)) := by
    rw [groupByFirstLocation, lookupBucket_groupFold_none outbreaks loc [] rfl, if_neg hne]
  simp only [findOutbreackForCase, hlook]
  rw [hfilter]
  rfl

/-- Witness for C6: two outbreaks both list U1 first; resolution of U1
returns the first of the two immediately, with an empty org-unit list
and the minimal fuel. -/
theorem findOutbreackForCase_immediate_hit_witness :
    findOutbreackForCase (groupByFirstLocation [sampleOutbreakA, sampleOutbreakB])
      [] 1 "U1" = some "O1" :=
  findOutbreackForCase_immediate_hit [sampleOutbreakA, sampleOutbreakB] "U1"
    sampleOutbreakA (by decide) [] 0

/-- C7 evidence of the divergence: on a tracked entity instance with no
events at all (so all four enriched stage fields are empty) and an EMPTY
confirmed-test condition list, the pipeline yields CONFIRMED, not
SUSPECT as the claim states: the empty conjunction passes, and the
always-true guard attaches a POSITIVE labResult despite the empty
labResultStage. With a non-empty condition list the pipeline does yield
SUSPECT. -/
theorem addLabInformation_empty_conditions_confirmed :
    addLabInformation ["a", "b", "c", "d"] [] [] sampleTE =
      some { sampleEmptyStagesTE with labResult := some "POSITIVE", caseClassification := some "CONFIRMED" } ∧
    addLabInformation ["a", "b", "c", "d"] [] [("d", "v")] sampleTE =
      some { sampleEmptyStagesTE with labResult := some "NEGATIVE", caseClassification := some "SUSPECT" } := by
  refine ⟨?_, ?_⟩ <;> decide

/-- C8. On a tracked entity instance none of whose events carries the
configured program-stage id, the enrichment is total and stores the
empty list under the stage field: findAndTransformEvent yields the empty
list and addEvent sets the field to it. -/
theorem addEvent_missing_stage_empty (dataElements : List DataElement)
    (f : StageField) (pid : String) (te : TE)
    (h : ∀ e ∈ te.events, e.programStage ≠ pid) :
    findAndTransformEvent dataElements (some pid) te.events = [] ∧
    getStage f (addEvent dataElements f (some pid) te) = some [] := by
  have hfind : te.events.find? (fun e => some e.programStage == some pid) = none := by
    rw [List.find?_eq_none]
    intro e he
    simpa using h e he
  have hmain : findAndTransformEvent dataElements (some pid) te.events = [] := by
    unfold findAndTransformEvent
    rw [hfind]
    rfl
  exact ⟨hmain, by rw [addEvent, hmain]; exact getStage_setStage f [] te⟩

/-- Witness for C8: the sample instance holds an event for stage s1
only, and enrichment for stage s2 stores the empty list. -/
theorem addEvent_missing_stage_empty_witness :
    findAndTransformEvent [] (some "s2") sampleEventTE.events = [] ∧
    getStage .symptoms (addEvent [] .symptoms (some "s2") sampleEventTE) = some [] :=
  addEvent_missing_stage_empty [] .symptoms "s2" sampleEventTE (by decide)

/-- C9. Enrichments for two distinct stage roles commute: each reads
only the events field, which neither writes, and writes its own stage
field, so applying the two addEvent steps in either order produces the
same tracked entity instance. -/
theorem addEvent_commute (d₁ d₂ : List DataElement) (n₁ n₂ : StageField)
    (p₁ p₂ : Option String) (te : TE) (h : n₁ ≠ n₂) :
    addEvent d₂ n₂ p₂ (addEvent d₁ n₁ p₁ te) = addEvent d₁ n₁ p₁ (addEvent d₂ n₂ p₂ te) := by
  cases n₁ <;> cases n₂ <;> first | exact absurd rfl h | rfl

/-- Witness for C9 on two concrete distinct stage roles. -/
theorem addEvent_commute_witness :
    addEvent [] .labRequestStage none (addEvent [] .clinicalExamination none sampleTE) =
      addEvent [] .clinicalExamination none (addEvent [] .labRequestStage none sampleTE) :=
  addEvent_commute [] [] .clinicalExamination .labRequestStage none none sampleTE (by decide)

/-- C10. For every configuration and every input instance,
addLabInformation succeeds and its output carries a caseClassification
drawn from exactly the four values CONFIRMED, NOT_A_CASE_DISCARDED,
PROBABLE and SUSPECT; the classification step always sets the field,
whatever value it held before. -/
theorem addLabInformation_classification_total (ids : List String)
    (dE : List DataElement) (conds : List (String × String)) (te : TE) :
    ∃ te₁, addLabInformation ids dE conds te = some te₁ ∧
      (te₁.caseClassification = some "CONFIRMED" ∨
       te₁.caseClassification = some "NOT_A_CASE_DISCARDED" ∨
       te₁.caseClassification = some "PROBABLE" ∨
       te₁.caseClassification = some "SUSPECT") := by
  unfold addLabInformation
  set te₅ := addLabResult conds
    (addEvent dE .symptoms ids[3]?
      (addEvent dE .labResultStage ids[2]?
        (addEvent dE .labRequestStage ids[1]?
          (addEvent dE .clinicalExamination ids[0]? te)))) with hte₅
  have hrs : te₅.labResultStage =
      some (findAndTransformEvent dE ids[2]?
        (addEvent dE .labRequestStage ids[1]?
          (addEvent dE .clinicalExamination ids[0]? te)).events) := rfl
  have hrq : te₅.labRequestStage =
      some (findAndTransformEvent dE ids[1]?
        (addEvent dE .clinicalExamination ids[0]? te).events) := rfl
  rw [addCaseClassification, classify_eq te₅ _ _ hrs hrq]
  refine ⟨_, rfl, ?_⟩
  simp only [Option.map_some]
  split_ifs <;> simp

/-- Witness applying the C10 theorem to a concrete configuration and
instance. -/
theorem addLabInformation_classification_total_witness :
    ∃ te₁, addLabInformation ["a", "b", "c", "d"] [] [("d", "v")] sampleTE = some te₁ ∧
      (te₁.caseClassification = some "CONFIRMED" ∨
       te₁.caseClassification = some "NOT_A_CASE_DISCARDED" ∨
       te₁.caseClassification = some "PROBABLE" ∨
       te₁.caseClassification = some "SUSPECT") :=
  addLabInformation_classification_total ["a", "b", "c", "d"] [] [("d", "v")] sampleTE
